import Mathlib

/-!
# git-notes-memory: verification of the core data model and operations

A shallow embedding of the memory-store core (lifecycle engine, content
compression, temporal decay scoring, search reranking, recall service and
pattern evidence tracking).  The repository ships the implementation only
through its test suite, so each definition below is modelled from the
specification (and cross-checked against the behaviour pinned down by the
tests); doc comments record the provenance.

Conventions of the embedding:
* byte strings are `List ℕ` (each entry a byte value);
* timestamps are rational "days" values, an age is `now - timestamp`;
* Python floats are modelled by `ℝ` (for the decay / rerank arithmetic)
  or `ℚ` (where exact evaluation is needed);
* functions that raise typed errors return `Except`/`Option` values.
-/

set_option maxRecDepth 4000

/-! ## UTF-8 encoding of strings

Modelled from the spec: the content byte limit and the compression layer both
operate on "UTF-8 bytes" of Python strings (`str.encode("utf-8")`).  We embed
the standard UTF-8 encoding of unicode code points. -/

/-- Modelled from the spec: UTF-8 bytes of a single unicode code point
(`str.encode("utf-8")` applied to one character). -/
def utf8EncodeNat (n : ℕ) : List ℕ :=
  if n < 128 then [n]
  else if n < 2048 then [192 + n / 64, 128 + n % 64]
  else if n < 65536 then [224 + n / 4096, 128 + (n / 64) % 64, 128 + n % 64]
  else [240 + n / 262144, 128 + (n / 4096) % 64, 128 + (n / 64) % 64, 128 + n % 64]

/-- Modelled from the spec: decode one UTF-8 code point from the front of a
byte list, returning the code point and the remaining bytes. -/
def utf8DecodeOne : List ℕ → Option (ℕ × List ℕ)
  | [] => none
  | b0 :: rest =>
    if b0 < 128 then some (b0, rest)
    else if b0 < 192 then none
    else if b0 < 224 then
      match rest with
      | b1 :: rest1 =>
        if 128 ≤ b1 ∧ b1 < 192 then some ((b0 - 192) * 64 + (b1 - 128), rest1) else none
      | [] => none
    else if b0 < 240 then
      match rest with
      | b1 :: b2 :: rest2 =>
        if (128 ≤ b1 ∧ b1 < 192) ∧ (128 ≤ b2 ∧ b2 < 192) then
          some ((b0 - 224) * 4096 + (b1 - 128) * 64 + (b2 - 128), rest2)
        else none
      | _ => none
    else if b0 < 248 then
      match rest with
      | b1 :: b2 :: b3 :: rest3 =>
        if (128 ≤ b1 ∧ b1 < 192) ∧ (128 ≤ b2 ∧ b2 < 192) ∧ (128 ≤ b3 ∧ b3 < 192) then
          some ((b0 - 240) * 262144 + (b1 - 128) * 4096 + (b2 - 128) * 64 + (b3 - 128), rest3)
        else none
      | _ => none
    else none

/-- Modelled from the spec: decode a whole UTF-8 byte list into characters
(`bytes.decode("utf-8")`); `none` on a malformed head byte sequence.
The recursion terminates because `utf8DecodeOne` always consumes at least one
byte on success. -/
def utf8DecodeList (bs : List ℕ) : Option (List Char) :=
  match h : utf8DecodeOne bs with
  | none => if bs.isEmpty then some [] else none
  | some (n, rest) =>
    (utf8DecodeList rest).map (fun cs => Char.ofNat n :: cs)
termination_by bs.length
decreasing_by
  unfold utf8DecodeOne at h
  repeat' split at h
  all_goals simp_all
  all_goals omega

/-- Modelled from the spec: the UTF-8 byte sequence of a string
(`s.encode("utf-8")`); its length is the "byte size" of the string. -/
def utf8Encode (s : String) : List ℕ :=
  s.data.flatMap (fun c => utf8EncodeNat c.toNat)

/-! ## Content compression (§4.I, `compress_content` / `decompress_content`)

Modelled from the spec: the archived body is "deflate-compressed"; we embed a
greedy LZ77-style sliding-window compressor over the UTF-8 bytes, with a
verified decoder that fails with a typed error on malformed input. -/

/-- LZ token: a literal byte or a back-reference `(offset, length)`. -/
inductive Token where
  | lit (b : ℕ)
  | mtch (off len : ℕ)
deriving DecidableEq

/-- Length of the common prefix of two byte lists, capped at `cap`. -/
def lcpLenUpTo : ℕ → List ℕ → List ℕ → ℕ
  | cap + 1, a :: as, b :: bs => if a = b then lcpLenUpTo cap as bs + 1 else 0
  | _, _, _ => 0

/-- Sliding-window size of the modelled compressor. -/
def windowSize : ℕ := 64

/-- Best back-reference `(off, len)` for `s` against the last bytes of
`window`: try every offset, keep the longest verified match with `len ≤ off`. -/
def findMatch (window s : List ℕ) : ℕ × ℕ :=
  (List.range window.length).foldl
    (fun best i =>
      let off := i + 1
      let len := lcpLenUpTo off (window.drop (window.length - off)) s
      if best.2 < len then (off, len) else best)
    (0, 0)

/-- Invariant certifying a `findMatch` candidate. -/
def goodBest (window s : List ℕ) (best : ℕ × ℕ) : Prop :=
  best.2 = 0 ∨
    (1 ≤ best.1 ∧ best.1 ≤ window.length ∧ best.2 ≤ best.1 ∧
      (window.drop (window.length - best.1)).take best.2 = s.take best.2)

/-- Append freshly consumed bytes and keep only the last `windowSize` bytes. -/
def pushWindow (window consumed : List ℕ) : List ℕ :=
  (window ++ consumed).drop ((window ++ consumed).length - windowSize)

/-- Modelled from the spec ("body is deflate-compressed at a configured
level"): greedy LZ77-style compression; `fuel` bounds the recursion by the
input length. -/
def lzCompressAux : ℕ → List ℕ → List ℕ → List Token
  | 0, _, _ => []
  | _ + 1, _, [] => []
  | fuel + 1, window, b :: rest =>
    let m := findMatch window (b :: rest)
    if 2 ≤ m.2 then
      Token.mtch m.1 m.2 ::
        lzCompressAux fuel (pushWindow window ((b :: rest).take m.2)) ((b :: rest).drop m.2)
    else
      Token.lit b :: lzCompressAux fuel (pushWindow window [b]) rest

def lzCompress (bs : List ℕ) : List Token :=
  lzCompressAux bs.length [] bs

/-- Byte encoding of the token stream: `0, b` for a literal byte and
`1, off, len` for a back-reference. -/
def encodeTokens : List Token → List ℕ
  | [] => []
  | Token.lit b :: ts => 0 :: b :: encodeTokens ts
  | Token.mtch off len :: ts => 1 :: off :: len :: encodeTokens ts

/-- Decode a token byte stream, rebuilding the output; a typed failure on any
malformed token. -/
def decompressBytes (acc : List ℕ) : List ℕ → Except String (List ℕ)
  | [] => .ok acc
  | 0 :: b :: code => decompressBytes (acc ++ [b]) code
  | 1 :: off :: len :: code =>
    if 1 ≤ len ∧ len ≤ off ∧ off ≤ acc.length then
      decompressBytes (acc ++ (acc.drop (acc.length - off)).take len) code
    else .error "Failed to decompress content"
  | _ => .error "Failed to decompress content"

/-- Modelled from the spec: `compress_content(text)` — compress the UTF-8
bytes of the body text. -/
def compress_content (text : String) : List ℕ :=
  encodeTokens (lzCompress (utf8Encode text))

/-- Modelled from the spec: `decompress_content(data)` reverses
`compress_content`; malformed input is a typed failure (`ValueError`,
"Failed to decompress ..."). -/
def decompress_content (data : List ℕ) : Except String String :=
  match decompressBytes [] data with
  | .error e => .error e
  | .ok bytes =>
    match utf8DecodeList bytes with
    | some cs => .ok (String.mk cs)
    | none => .error "Failed to decompress content: invalid UTF-8"

/-- Modelled from the spec: `get_compression_ratio(original, compressed)` —
compressed size over the original's UTF-8 byte size (1.0 for empty input). -/
def get_compression_ratio (original : String) (compressed : List ℕ) : ℚ :=
  if (utf8Encode original).length = 0 then 1
  else (compressed.length : ℚ) / ((utf8Encode original).length : ℚ)

/-- The literal test string `"Hello world! " * 100` of end-to-end scenario 4. -/
def helloWorldTimes100 : String := String.join (List.replicate 100 "Hello world! ")

/-! ## Data model: memories (§3) and the lifecycle state machine (§4.I) -/

/-- A memory's lifecycle status (source: `MemoryStatus` enum). -/
inductive MemoryStatus where
  | active
  | resolved
  | archived
  | tombstone
deriving DecidableEq

/-- One memory record (source: `Memory` in `git_notes_memory.models`); the
`namespace` field of the source is called `ns` here (`namespace` is a Lean
keyword), timestamps are rational day counts. -/
structure Memory where
  id : String
  commit_sha : String
  ns : String
  timestamp : Option ℚ
  summary : String
  content : String
  spec : Option String
  tags : List String
  phase : Option String
  status : MemoryStatus
  relates_to : List String
deriving DecidableEq

/-- A search hit: a memory together with its vector distance
(source: `MemoryResult`). -/
structure MemoryResult where
  memory : Memory
  distance : ℚ
deriving DecidableEq

/-- Modelled from the spec (§4.I state machine, pinned down by
`TestMemoryStatus`): the permitted lifecycle transitions. -/
def MemoryStatus.canTransitionTo : MemoryStatus → MemoryStatus → Bool
  | .active, .resolved => true
  | .active, .archived => true
  | .active, .tombstone => true
  | .resolved, .archived => true
  | .archived, .tombstone => true
  | .archived, .active => true
  | .tombstone, .active => true
  | _, _ => false

/-- The literal summary written by tombstone redaction. -/
def TOMBSTONE_SUMMARY : String := "[DELETED]"

/-- The index's id → memory map, as observed by the lifecycle manager. -/
def MemoryStore := String → Option Memory

/-- Store one memory under an id (the `index.update` write path). -/
def MemoryStore.update (store : MemoryStore) (id : String) (m : Memory) : MemoryStore :=
  fun i => if i = id then some m else store i

/-- Modelled from the spec: `LifecycleManager._transition` — fetch the memory,
check the state machine, apply the target status plus the per-target
`transform`, write back.  Returns `false` ("not performed", not an error) and
leaves the store unchanged when the memory is missing or the edge is not
permitted. -/
def LifecycleManager.transition (store : MemoryStore) (id : String)
    (target : MemoryStatus) (transform : Memory → Memory) : Bool × MemoryStore :=
  match store id with
  | none => (false, store)
  | some m =>
    if m.status.canTransitionTo target then
      (true, store.update id (transform { m with status := target }))
    else (false, store)

/-- Modelled from the spec: `LifecycleManager.resolve(id)`. -/
def LifecycleManager.resolve (store : MemoryStore) (id : String) : Bool × MemoryStore :=
  LifecycleManager.transition store id .resolved (fun m => m)

/-- Modelled from the spec: `LifecycleManager.delete(id)` — soft delete:
tombstone with redaction (summary becomes `[DELETED]`, content cleared, all
other fields kept). -/
def LifecycleManager.delete (store : MemoryStore) (id : String) : Bool × MemoryStore :=
  LifecycleManager.transition store id .tombstone
    (fun m => { m with summary := TOMBSTONE_SUMMARY, content := "" })

/-- Modelled from the spec: `LifecycleManager.restore(id)` — back to active. -/
def LifecycleManager.restore (store : MemoryStore) (id : String) : Bool × MemoryStore :=
  LifecycleManager.transition store id .active (fun m => m)

/-! ## Validation utilities (§4.F, `git_notes_memory.utils`) -/

/-- Modelled from the spec: `validate_content_size(content)` — content must be
at most the configured byte limit, counted in UTF-8 bytes; over the limit is a
validation error (`ValueError`, "... exceeds maximum ..."). -/
def validate_content_size (content : String) (max_content_bytes : ℕ) : Except String Unit :=
  if (utf8Encode content).length ≤ max_content_bytes then .ok ()
  else .error "Content size exceeds maximum"

/-! ## Patterns (§4.J, `git_notes_memory.patterns`) -/

/-- The closed pattern-type enum (source: `PatternType`). -/
inductive PatternType where
  | success
  | anti_pattern
  | workflow
  | decision
  | technical
deriving DecidableEq

/-- The pattern lifecycle states (source: `PatternStatus`). -/
inductive PatternStatus where
  | candidate
  | validated
  | promoted
  | deprecated
deriving DecidableEq

/-- A distilled pattern (source: `Pattern` in `git_notes_memory.models`). -/
structure Pattern where
  name : String
  pattern_type : PatternType
  description : String
  tags : List String
  evidence : List String
  confidence : ℚ
  status : PatternStatus
  first_seen : ℚ
  last_seen : ℚ
  occurrence_count : ℕ
deriving DecidableEq

/-- Confidence threshold for auto-validation (the tests pin it to `[0.5, 1]`). -/
def MIN_CONFIDENCE_FOR_VALIDATION : ℚ := 7 / 10

/-- Modelled from the spec: the confidence recomputation performed by
`add_evidence` ("bump occurrence_count and recompute confidence").  The spec
fixes no formula, only that more evidence raises confidence within `[0,1]`;
we model one fifth of the remaining headroom per new evidence item. -/
def Pattern.recompute_confidence (p : Pattern) : ℚ :=
  p.confidence + (1 - p.confidence) / 5

/-- Modelled from the spec: `add_evidence(name, mem_id)` on a registered
pattern — duplicate ids are a no-op; a new id is appended, the occurrence
count bumped, confidence recomputed, and a candidate auto-validates when the
new confidence crosses `MIN_CONFIDENCE_FOR_VALIDATION`. -/
def Pattern.add_evidence (p : Pattern) (mem_id : String) : Pattern :=
  if mem_id ∈ p.evidence then p
  else
    let conf := p.recompute_confidence
    { p with
      evidence := p.evidence ++ [mem_id]
      occurrence_count := p.occurrence_count + 1
      confidence := conf
      status :=
        if p.status = .candidate ∧ MIN_CONFIDENCE_FOR_VALIDATION ≤ conf then
          .validated
        else p.status }

/-! ## Temporal decay (§4.I scoring, `git_notes_memory.utils`) -/

/-- Modelled from the spec: `calculate_temporal_decay(timestamp, half_life_days,
min_decay)` — `2^(-age/half_life)` with the age (in days, `now - timestamp`)
clamped at 0, floored at `min_decay`; an absent timestamp yields `0.5`
(§4.I: "None timestamp → 0.5", pinned by `test_decay_none_timestamp`).
The first argument is the age `now - timestamp` (negative for a future
timestamp), `none` for an absent one. -/
noncomputable def calculate_temporal_decay (age_days : Option ℝ)
    (half_life_days : ℝ) (min_decay : ℝ) : ℝ :=
  match age_days with
  | none => 0.5
  | some a => max min_decay ((2 : ℝ) ^ (-(max 0 a / half_life_days)))

/-! ## Search reranking (§4.H, `git_notes_memory.search`) -/

/-- Rerank weights for the four signals (source: `ResultReranker` fields). -/
structure RerankWeights where
  recency_weight : ℝ
  namespace_weight : ℝ
  spec_weight : ℝ
  tag_weight : ℝ

/-- The four rank factors attached to a ranked result
(source: `RankedResult.rank_factors`). -/
structure RankFactors where
  recency : ℝ
  ns_priority : ℝ
  spec_match : ℝ
  tag_overlap : ℝ

/-- A reranked result (source: `RankedResult`). -/
structure RankedResult where
  result : MemoryResult
  original_score : ℝ
  boosted_score : ℝ
  rank_factors : RankFactors

/-- Modelled from the spec: the fixed namespace priority table. -/
noncomputable def namespacePriority (ns : String) : ℝ :=
  if ns = "decisions" then 1
  else if ns = "learnings" then 0.9
  else if ns = "blockers" then 0.8
  else if ns = "progress" then 0.7
  else 0.5

/-- Default half-life for the recency signal (days). -/
noncomputable def HALF_LIFE_DAYS : ℝ := 30

/-- Modelled from the spec: the recency rank factor — temporal decay of the
memory's age at rerank time `now`. -/
noncomputable def recencyFactor (now : ℚ) (m : Memory) : ℝ :=
  calculate_temporal_decay (m.timestamp.map (fun ts => ((now : ℝ) - (ts : ℝ))))
    HALF_LIFE_DAYS 0

/-- Modelled from the spec: namespace priority, further boosted (still within
`[0,1]`) when the target namespace matches. -/
noncomputable def namespaceFactor (target_namespace : Option String) (m : Memory) : ℝ :=
  let p := namespacePriority m.ns
  if target_namespace = some m.ns then min 1 (p + 0.2) else p

/-- Modelled from the spec: 1.0 if the result's spec equals `target_spec`,
else 0.0. -/
noncomputable def specFactor (target_spec : Option String) (m : Memory) : ℝ :=
  match target_spec with
  | none => 0
  | some t => if m.spec = some t then 1 else 0

/-- Modelled from the spec: Jaccard-like overlap of the result's tags with the
target tags, in `[0,1]`. -/
noncomputable def tagOverlapFactor (target_tags : List String) (m : Memory) : ℝ :=
  let inter := m.tags.filter (fun t => target_tags.contains t)
  let union := m.tags ++ target_tags.filter (fun t => ¬ m.tags.contains t)
  if union.length = 0 then 0 else (inter.length : ℝ) / (union.length : ℝ)

/-- All four rank factors of a memory for the given targets. -/
noncomputable def rankFactorsOf (now : ℚ) (target_namespace target_spec : Option String)
    (target_tags : List String) (m : Memory) : RankFactors :=
  { recency := recencyFactor now m
    ns_priority := namespaceFactor target_namespace m
    spec_match := specFactor target_spec m
    tag_overlap := tagOverlapFactor target_tags m }

/-- The weighted boost `Σ weight_k · factor_k`. -/
noncomputable def boostOf (w : RerankWeights) (f : RankFactors) : ℝ :=
  w.recency_weight * f.recency + w.namespace_weight * f.ns_priority +
    w.spec_weight * f.spec_match + w.tag_weight * f.tag_overlap

/-- Score one raw result: `boosted = max(0, distance - Σ weight_k · factor_k)`. -/
noncomputable def rankOne (w : RerankWeights) (now : ℚ)
    (target_namespace target_spec : Option String) (target_tags : List String)
    (r : MemoryResult) : RankedResult :=
  let f := rankFactorsOf now target_namespace target_spec target_tags r.memory
  { result := r
    original_score := (r.distance : ℝ)
    boosted_score := max 0 ((r.distance : ℝ) - boostOf w f)
    rank_factors := f }

/-- Modelled from the spec: `ResultReranker.rerank` — score every raw result
and sort ascending by boosted score (lower is better). -/
noncomputable def ResultReranker.rerank (w : RerankWeights) (now : ℚ)
    (target_namespace target_spec : Option String) (target_tags : List String)
    (results : List MemoryResult) : List RankedResult :=
  (results.map (rankOne w now target_namespace target_spec target_tags)).mergeSort
    (fun a b => decide (a.boosted_score ≤ b.boosted_score))

/-! ## Recall service (§4.G, `git_notes_memory.recall`) -/

/-- The typed recall failure (source: `RecallError`). -/
structure RecallError where
  message : String
deriving DecidableEq

/-- Result of a semantic search together with whether the embedding service
was contacted. -/
structure SemanticSearchOutcome where
  results : Except RecallError (List MemoryResult)
  embedder_called : Bool

/-- An empty or whitespace-only query (Python `not query.strip()`). -/
def blankQuery (q : String) : Bool :=
  q.data.all Char.isWhitespace

/-- Modelled from the spec: `RecallService.search(query, ...)` — an empty or
whitespace-only query short-circuits to `[]` without embedding; otherwise the
query is embedded, `search_vector` is consulted (its outcome is the second
argument) and results are post-filtered by `similarity = 1/(1+distance) ≥
min_similarity`; an index failure is wrapped in a typed `RecallError`. -/
def RecallService.search (query : String)
    (search_vector : Except String (List (Memory × ℚ))) (min_similarity : ℚ) :
    SemanticSearchOutcome :=
  if blankQuery query then ⟨.ok [], false⟩
  else
    match search_vector with
    | .error e => ⟨.error ⟨"Search failed: " ++ e⟩, true⟩
    | .ok rs =>
      ⟨.ok ((rs.filter (fun p => min_similarity ≤ 1 / (1 + p.2))).map
          (fun p => ⟨p.1, p.2⟩)), true⟩

/-- Modelled from the spec: `RecallService.search_text(query, ...)` — empty
query returns `[]`; the embedder is never contacted (second component); an
index failure is wrapped in a typed `RecallError`. -/
def RecallService.search_text (query : String)
    (fts : Except String (List Memory)) : Except RecallError (List Memory) × Bool :=
  if blankQuery query then (.ok [], false)
  else
    match fts with
    | .error e => (.error ⟨"Text search failed: " ++ e⟩, false)
    | .ok ms => (.ok ms, false)

/-- Modelled from the spec (pinned by `test_get_handles_errors`):
`RecallService.get(id)` — index failures degrade to `none`. -/
def RecallService.get (fetched : Except String (Option Memory)) : Option Memory :=
  match fetched with
  | .ok v => v
  | .error _ => none

/-- Modelled from the spec (pinned by `test_get_batch_handles_errors`):
`RecallService.get_batch(ids)` — index failures degrade to `[]`. -/
def RecallService.get_batch (fetched : Except String (List Memory)) : List Memory :=
  match fetched with
  | .ok v => v
  | .error _ => []

/-- Modelled from the spec (pinned by `test_list_recent_handles_errors`):
`RecallService.list_recent(...)` — wraps each memory as a distance-0 result;
index failures degrade to `[]`. -/
def RecallService.list_recent (fetched : Except String (List Memory)) : List MemoryResult :=
  match fetched with
  | .ok ms => ms.map (fun m => ⟨m, 0⟩)
  | .error _ => []

/-! ## Helper lemmas -/

/-- Decoding inverts the UTF-8 encoding of a single code point. -/
theorem utf8DecodeOne_encode (n : ℕ) (hn : n < 1114112) (rest : List ℕ) :
    utf8DecodeOne (utf8EncodeNat n ++ rest) = some (n, rest) := by
  by_cases h1 : n < 128
  · simp [utf8EncodeNat, utf8DecodeOne, h1]
  · by_cases h2 : n < 2048
    · have c1 : ¬ (192 + n / 64 < 128) := by omega
      have c2 : ¬ (192 + n / 64 < 192) := by omega
      have c3 : 192 + n / 64 < 224 := by omega
      have c4 : 128 ≤ 128 + n % 64 := by omega
      have c5 : 128 + n % 64 < 192 := by omega
      simp [utf8EncodeNat, utf8DecodeOne, h1, h2, c1, c2, c3, c4, c5]
      omega
    · by_cases h3 : n < 65536
      · have c1 : ¬ (224 + n / 4096 < 128) := by omega
        have c2 : ¬ (224 + n / 4096 < 192) := by omega
        have c3 : ¬ (224 + n / 4096 < 224) := by omega
        have c4 : 224 + n / 4096 < 240 := by omega
        have c5 : 128 ≤ 128 + (n / 64) % 64 := by omega
        have c6 : 128 + (n / 64) % 64 < 192 := by omega
        have c7 : 128 ≤ 128 + n % 64 := by omega
        have c8 : 128 + n % 64 < 192 := by omega
        simp [utf8EncodeNat, utf8DecodeOne, h1, h2, h3, c1, c2, c3, c4, c5, c6, c7, c8]
        omega
      · have c1 : ¬ (240 + n / 262144 < 128) := by omega
        have c2 : ¬ (240 + n / 262144 < 192) := by omega
        have c3 : ¬ (240 + n / 262144 < 224) := by omega
        have c4 : ¬ (240 + n / 262144 < 240) := by omega
        have c5 : 240 + n / 262144 < 248 := by omega
        have c6 : 128 ≤ 128 + (n / 4096) % 64 := by omega
        have c7 : 128 + (n / 4096) % 64 < 192 := by omega
        have c8 : 128 ≤ 128 + (n / 64) % 64 := by omega
        have c9 : 128 + (n / 64) % 64 < 192 := by omega
        have c10 : 128 ≤ 128 + n % 64 := by omega
        have c11 : 128 + n % 64 < 192 := by omega
        simp [utf8EncodeNat, utf8DecodeOne, h1, h2, h3, c1, c2, c3, c4, c5, c6, c7, c8,
          c9, c10, c11]
        omega

/-- Unfolding `utf8DecodeList` when the head code point decodes. -/
theorem utf8DecodeList_eq_of (bs : List ℕ) (n : ℕ) (rest : List ℕ)
    (h : utf8DecodeOne bs = some (n, rest)) :
    utf8DecodeList bs = (utf8DecodeList rest).map (fun cs => Char.ofNat n :: cs) := by
  rw [utf8DecodeList]
  split
  · simp_all
  · rename_i n' rest' h'
    rw [h] at h'
    injection h' with h''
    cases h''
    rfl

/-- Decoding inverts the UTF-8 encoding of a whole character list. -/
theorem utf8DecodeList_encode (cs : List Char) :
    utf8DecodeList (cs.flatMap (fun c => utf8EncodeNat c.toNat)) = some cs := by
  induction cs with
  | nil =>
    show utf8DecodeList [] = some []
    rw [utf8DecodeList]
    simp [utf8DecodeOne]
  | cons c cs ih =>
    have hc : c.toNat < 1114112 := by
      rcases c.valid with h | ⟨h1, h2⟩
      · exact lt_trans h (by norm_num)
      · exact h2
    rw [List.flatMap_cons, utf8DecodeList_eq_of _ _ _ (utf8DecodeOne_encode c.toNat hc _), ih]
    simp [Char.ofNat_toNat]

/-- `lcpLenUpTo` never exceeds its cap. -/
theorem lcpLenUpTo_le_cap : ∀ (cap : ℕ) (xs ys : List ℕ), lcpLenUpTo cap xs ys ≤ cap := by
  intro cap
  induction cap with
  | zero => intro xs ys; cases xs <;> cases ys <;> simp [lcpLenUpTo]
  | succ c ih =>
    intro xs ys
    cases xs with
    | nil => simp [lcpLenUpTo]
    | cons a as =>
      cases ys with
      | nil => simp [lcpLenUpTo]
      | cons b bs =>
        by_cases hab : a = b
        · simp only [lcpLenUpTo, if_pos hab]
          exact Nat.succ_le_succ (ih as bs)
        · simp [lcpLenUpTo, hab]

/-- The two lists agree on their first `lcpLenUpTo` entries. -/
theorem lcpLenUpTo_take : ∀ (cap : ℕ) (xs ys : List ℕ),
    xs.take (lcpLenUpTo cap xs ys) = ys.take (lcpLenUpTo cap xs ys) := by
  intro cap
  induction cap with
  | zero => intro xs ys; cases xs <;> cases ys <;> simp [lcpLenUpTo]
  | succ c ih =>
    intro xs ys
    cases xs with
    | nil => simp [lcpLenUpTo]
    | cons a as =>
      cases ys with
      | nil => simp [lcpLenUpTo]
      | cons b bs =>
        by_cases hab : a = b
        · subst hab
          simp [lcpLenUpTo]
          exact ih as bs
        · simp [lcpLenUpTo, hab]

/-- A fold preserves any invariant preserved by each step. -/
theorem foldl_preserve {α β : Type} {f : β → α → β} {P : β → Prop} :
    ∀ (l : List α) (b : β), P b → (∀ b a, a ∈ l → P b → P (f b a)) → P (l.foldl f b) := by
  intro l
  induction l with
  | nil => intro b hb _; exact hb
  | cons x xs ih =>
    intro b hb hstep
    exact ih (f b x) (hstep b x (List.mem_cons_self x xs) hb)
      (fun b' a ha hb' => hstep b' a (List.mem_cons_of_mem x ha) hb')

/-- Every `findMatch` result satisfies the certification invariant. -/
theorem findMatch_good (window s : List ℕ) : goodBest window s (findMatch window s) := by
  unfold findMatch
  apply foldl_preserve
  · left; rfl
  · intro best i hi hbest
    simp only [List.mem_range] at hi
    by_cases hlt : best.2 < lcpLenUpTo (i + 1) (window.drop (window.length - (i + 1))) s
    · simp only [if_pos hlt]
      right
      refine ⟨Nat.le_add_left 1 i, by omega, lcpLenUpTo_le_cap _ _ _, ?_⟩
      exact lcpLenUpTo_take (i + 1) (window.drop (window.length - (i + 1))) s
    · simp only [if_neg hlt]
      exact hbest

/-- A nonempty `findMatch` result is a valid verified back-reference. -/
theorem findMatch_spec (window s : List ℕ) (h : 1 ≤ (findMatch window s).2) :
    1 ≤ (findMatch window s).1 ∧ (findMatch window s).1 ≤ window.length ∧
      (findMatch window s).2 ≤ (findMatch window s).1 ∧
      (window.drop (window.length - (findMatch window s).1)).take (findMatch window s).2
        = s.take (findMatch window s).2 := by
  rcases findMatch_good window s with h0 | hgood
  · omega
  · exact hgood

/-- Dropping down to the last `off` elements ignores any prefix. -/
theorem suffix_slice (pre window : List ℕ) (off : ℕ) (hoff : off ≤ window.length) :
    (pre ++ window).drop ((pre ++ window).length - off)
      = window.drop (window.length - off) := by
  have h : (pre ++ window).length - off = pre.length + (window.length - off) := by
    simp [List.length_append]; omega
  rw [h, List.drop_append]

/-- Decompression inverts compression, relative to any already-emitted output
`acc` whose final bytes are the compressor's window. -/
theorem decompress_lzCompressAux (fuel : ℕ) :
    ∀ (rest window acc pre : List ℕ), rest.length ≤ fuel → acc = pre ++ window →
      decompressBytes acc (encodeTokens (lzCompressAux fuel window rest))
        = .ok (acc ++ rest) := by
  induction fuel with
  | zero =>
    intro rest window acc pre hlen hacc
    have : rest = [] := List.length_eq_zero.mp (Nat.le_zero.mp hlen)
    subst this
    simp [lzCompressAux, encodeTokens, decompressBytes]
  | succ fuel ih =>
    intro rest window acc pre hlen hacc
    cases rest with
    | nil => simp [lzCompressAux, encodeTokens, decompressBytes]
    | cons b t =>
      set s : List ℕ := b :: t with hs
      by_cases hm : 2 ≤ (findMatch window s).2
      · have hspec := findMatch_spec window s (by omega)
        obtain ⟨hoff1, hoffw, hlenoff, htake⟩ := hspec
        set off := (findMatch window s).1 with hoffdef
        set len := (findMatch window s).2 with hlendef
        have hstep : lzCompressAux (fuel + 1) window s =
            Token.mtch off len ::
              lzCompressAux fuel (pushWindow window (s.take len)) (s.drop len) := by
          rw [hs]
          show lzCompressAux (fuel + 1) window (b :: t) = _
          rw [lzCompressAux]
          simp only [← hs, if_pos hm]
        rw [hstep, encodeTokens]
        rw [decompressBytes]
        have hacclen : window.length ≤ acc.length := by
          rw [hacc]; simp [List.length_append]
        rw [if_pos ⟨by omega, hlenoff, by omega⟩]
        have hcopy : (acc.drop (acc.length - off)).take len = s.take len := by
          rw [hacc, suffix_slice pre window off hoffw, htake]
        rw [hcopy]
        have happly := ih (s.drop len) (pushWindow window (s.take len))
          (acc ++ s.take len)
          (pre ++ (window ++ s.take len).take ((window ++ s.take len).length - windowSize))
          (by
            have : s.length = t.length + 1 := by rw [hs]; simp
            have hd : (s.drop len).length = s.length - len := List.length_drop len s
            omega)
          (by
            rw [pushWindow]
            rw [List.append_assoc, List.take_append_drop, ← List.append_assoc, ← hacc])
        rw [happly]
        rw [List.append_assoc, List.take_append_drop]
      · have hstep : lzCompressAux (fuel + 1) window s =
            Token.lit b :: lzCompressAux fuel (pushWindow window [b]) t := by
          rw [hs]
          show lzCompressAux (fuel + 1) window (b :: t) = _
          rw [lzCompressAux]
          simp only [← hs, if_neg hm]
        rw [hstep, encodeTokens]
        rw [decompressBytes]
        have happly := ih t (pushWindow window [b]) (acc ++ [b])
          (pre ++ (window ++ [b]).take ((window ++ [b]).length - windowSize))
          (by
            have : s.length = t.length + 1 := by rw [hs]; simp
            omega)
          (by
            rw [pushWindow]
            rw [List.append_assoc, List.take_append_drop, ← List.append_assoc, ← hacc])
        rw [happly]
        rw [List.append_assoc]
        rfl

/-- Byte-level roundtrip of the modelled compressor. -/
theorem decompress_lzCompress (bs : List ℕ) :
    decompressBytes [] (encodeTokens (lzCompress bs)) = .ok bs := by
  have h := decompress_lzCompressAux bs.length bs [] [] [] (le_refl _) rfl
  simpa using h

/-! ## Claim theorems -/

set_option maxRecDepth 1000000 in
/-- C6: for every string `s` (including non-ASCII text),
`decompress_content (compress_content s)` equals `s`; decompressing malformed
bytes is a typed failure; and for `"Hello world! " * 100` the compressed size
is strictly smaller than the UTF-8 size of the original, so the compression
ratio is below 1. -/
theorem compress_decompress_roundtrip_and_ratio :
    (∀ s : String, decompress_content (compress_content s) = .ok s) ∧
    (∃ e, decompress_content (utf8Encode "not valid compressed data") = .error e) ∧
    (compress_content helloWorldTimes100).length < (utf8Encode helloWorldTimes100).length ∧
    get_compression_ratio helloWorldTimes100 (compress_content helloWorldTimes100) < 1 := by
  have hlen :
      (compress_content helloWorldTimes100).length <
        (utf8Encode helloWorldTimes100).length := by decide
  refine ⟨?_, ?_, hlen, ?_⟩
  · intro s
    have h1 : decompressBytes [] (compress_content s) = .ok (utf8Encode s) :=
      decompress_lzCompress (utf8Encode s)
    have h2 : utf8DecodeList (utf8Encode s) = some s.data :=
      utf8DecodeList_encode s.data
    unfold decompress_content
    simp only [h1, h2]
  · exact ⟨"Failed to decompress content", rfl⟩
  · unfold get_compression_ratio
    rw [if_neg (by omega)]
    rw [div_lt_one (by exact_mod_cast Nat.pos_of_ne_zero (by omega))]
    exact_mod_cast hlen

/-- C8: content size validation counts UTF-8 bytes: content whose UTF-8
encoding is exactly the configured maximum validates, and content one byte
over the limit fails with a validation error. -/
theorem validate_content_size_byte_boundary (content : String) (max_bytes : ℕ) :
    ((utf8Encode content).length = max_bytes →
      validate_content_size content max_bytes = .ok ()) ∧
    ((utf8Encode content).length = max_bytes + 1 →
      ∃ e, validate_content_size content max_bytes = .error e) := by
  constructor
  · intro h
    unfold validate_content_size
    rw [if_pos (by omega)]
  · intro h
    unfold validate_content_size
    rw [if_neg (by omega)]
    exact ⟨_, rfl⟩

/-- Witness for C8 at concrete inputs: the four-byte, one-character string
`"🔥"` validates at a four-byte limit and fails at a three-byte limit. -/
theorem validate_content_size_byte_boundary_witness :
    (utf8Encode "🔥").length = 4 ∧ "🔥".data.length = 1 ∧
    validate_content_size "🔥" 4 = .ok () ∧
    (∃ e, validate_content_size "🔥" 3 = .error e) :=
  ⟨by decide, by decide,
    (validate_content_size_byte_boundary "🔥" 4).1 (by decide),
    (validate_content_size_byte_boundary "🔥" 3).2 (by decide)⟩

/-- C1: a lifecycle transition from `s` to `t` is permitted exactly when
`s → t` is an edge of the §4.I state machine; any other attempted transition —
including resolving an already-resolved memory — returns "not performed"
(`false`) without an error and leaves the stored memory unchanged. -/
theorem lifecycle_transition_state_machine :
    (∀ s t : MemoryStatus, s.canTransitionTo t = true ↔
      ((s = .active ∧ t = .resolved) ∨ (s = .active ∧ t = .archived) ∨
        (s = .active ∧ t = .tombstone) ∨ (s = .resolved ∧ t = .archived) ∨
        (s = .archived ∧ t = .tombstone) ∨ (s = .archived ∧ t = .active) ∨
        (s = .tombstone ∧ t = .active))) ∧
    (∀ (store : MemoryStore) (id : String) (target : MemoryStatus)
        (transform : Memory → Memory) (m : Memory),
      store id = some m → m.status.canTransitionTo target = false →
      LifecycleManager.transition store id target transform = (false, store)) ∧
    (∀ (store : MemoryStore) (id : String) (m : Memory),
      store id = some m → m.status = .resolved →
      LifecycleManager.resolve store id = (false, store)) := by
  refine ⟨?_, ?_, ?_⟩
  · intro s t
    cases s <;> cases t <;> simp [MemoryStatus.canTransitionTo]
  · intro store id target transform m hm hcan
    unfold LifecycleManager.transition
    rw [hm]
    simp [hcan]
  · intro store id m hm hstat
    unfold LifecycleManager.resolve LifecycleManager.transition
    rw [hm]
    simp [hstat, MemoryStatus.canTransitionTo]

/-- Witness for C1 at a concrete input: resolving an already-resolved memory
is "not performed" and leaves the store unchanged. -/
theorem lifecycle_transition_state_machine_witness :
    ((fun i => if i = "decisions:abc:0" then
        some (⟨"decisions:abc:0", "abc", "decisions", some 0, "s", "c", none, [],
          none, .resolved, []⟩ : Memory)
      else none) : MemoryStore) "decisions:abc:0" =
        some ⟨"decisions:abc:0", "abc", "decisions", some 0, "s", "c", none, [],
          none, .resolved, []⟩ ∧
    (⟨"decisions:abc:0", "abc", "decisions", some 0, "s", "c", none, [],
        none, .resolved, []⟩ : Memory).status = .resolved ∧
    LifecycleManager.resolve
      (fun i => if i = "decisions:abc:0" then
        some ⟨"decisions:abc:0", "abc", "decisions", some 0, "s", "c", none, [],
          none, .resolved, []⟩
      else none) "decisions:abc:0" =
      (false, fun i => if i = "decisions:abc:0" then
        some ⟨"decisions:abc:0", "abc", "decisions", some 0, "s", "c", none, [],
          none, .resolved, []⟩
      else none) :=
  ⟨rfl, rfl,
    lifecycle_transition_state_machine.2.2 _ "decisions:abc:0" _ rfl rfl⟩

/-- C7: tombstoning via `delete` sets the status to `tombstone`, the summary
to the literal `[DELETED]` and the content to the empty string, while tags and
all other fields (id, namespace, commit_sha, timestamp, spec, phase,
relates_to) are left unchanged. -/
theorem delete_tombstone_redaction (store : MemoryStore) (id : String) (m : Memory)
    (hm : store id = some m) (hcan : m.status.canTransitionTo .tombstone = true) :
    (LifecycleManager.delete store id).1 = true ∧
    ∃ m', (LifecycleManager.delete store id).2 id = some m' ∧
      m'.status = .tombstone ∧ m'.summary = TOMBSTONE_SUMMARY ∧ m'.content = "" ∧
      m'.tags = m.tags ∧ m'.id = m.id ∧ m'.ns = m.ns ∧
      m'.commit_sha = m.commit_sha ∧ m'.timestamp = m.timestamp ∧
      m'.spec = m.spec ∧ m'.phase = m.phase ∧ m'.relates_to = m.relates_to := by
  unfold LifecycleManager.delete LifecycleManager.transition
  rw [hm]
  simp only [hcan, if_true]
  refine ⟨trivial, ?_⟩
  refine ⟨{ m with status := .tombstone, summary := TOMBSTONE_SUMMARY, content := "" },
    ?_, rfl, rfl, rfl, rfl, rfl, rfl, rfl, rfl, rfl, rfl, rfl⟩
  unfold MemoryStore.update
  simp

/-- Witness for C7 at a concrete input: deleting an active memory. -/
theorem delete_tombstone_redaction_witness :
    ((fun i => if i = "test:abc123:0" then
        some (⟨"test:abc123:0", "abc123", "decisions", some 10, "Test summary",
          "Test content", none, ["keep"], none, .active, []⟩ : Memory)
      else none) : MemoryStore) "test:abc123:0" =
        some ⟨"test:abc123:0", "abc123", "decisions", some 10, "Test summary",
          "Test content", none, ["keep"], none, .active, []⟩ ∧
    (MemoryStatus.active.canTransitionTo .tombstone = true) ∧
    ((LifecycleManager.delete
      (fun i => if i = "test:abc123:0" then
        some ⟨"test:abc123:0", "abc123", "decisions", some 10, "Test summary",
          "Test content", none, ["keep"], none, .active, []⟩
      else none) "test:abc123:0").1 = true ∧
    ∃ m', (LifecycleManager.delete
      (fun i => if i = "test:abc123:0" then
        some ⟨"test:abc123:0", "abc123", "decisions", some 10, "Test summary",
          "Test content", none, ["keep"], none, .active, []⟩
      else none) "test:abc123:0").2 "test:abc123:0" = some m' ∧
      m'.status = .tombstone ∧ m'.summary = TOMBSTONE_SUMMARY ∧ m'.content = "" ∧
      m'.tags = ["keep"] ∧ m'.id = "test:abc123:0" ∧ m'.ns = "decisions" ∧
      m'.commit_sha = "abc123" ∧ m'.timestamp = some 10 ∧
      m'.spec = none ∧ m'.phase = none ∧ m'.relates_to = []) :=
  ⟨rfl, rfl,
    delete_tombstone_redaction
      (fun i => if i = "test:abc123:0" then
        some ⟨"test:abc123:0", "abc123", "decisions", some 10, "Test summary",
          "Test content", none, ["keep"], none, .active, []⟩
      else none)
      "test:abc123:0"
      ⟨"test:abc123:0", "abc123", "decisions", some 10, "Test summary",
        "Test content", none, ["keep"], none, .active, []⟩
      rfl rfl⟩

/-- C9: after `add_evidence`, `occurrence_count` still equals the number of
evidence ids; adding an id already present is a no-op, while a new id is
appended, bumps `occurrence_count` by one, and raises the confidence (strictly,
as long as confidence has headroom below its upper bound 1). -/
theorem pattern_add_evidence_invariants (p : Pattern) (mem_id : String) :
    (mem_id ∈ p.evidence → p.add_evidence mem_id = p) ∧
    (mem_id ∉ p.evidence →
      (p.add_evidence mem_id).evidence = p.evidence ++ [mem_id] ∧
      (p.add_evidence mem_id).occurrence_count = p.occurrence_count + 1 ∧
      (p.confidence < 1 → p.confidence < (p.add_evidence mem_id).confidence)) ∧
    (p.occurrence_count = p.evidence.length →
      (p.add_evidence mem_id).occurrence_count = (p.add_evidence mem_id).evidence.length) := by
  refine ⟨?_, ?_, ?_⟩
  · intro hmem
    unfold Pattern.add_evidence
    rw [if_pos hmem]
  · intro hmem
    unfold Pattern.add_evidence
    rw [if_neg hmem]
    refine ⟨rfl, rfl, ?_⟩
    intro hconf
    unfold Pattern.recompute_confidence
    linarith
  · intro hinv
    by_cases hmem : mem_id ∈ p.evidence
    · unfold Pattern.add_evidence
      rw [if_pos hmem]
      exact hinv
    · unfold Pattern.add_evidence
      rw [if_neg hmem]
      simp [hinv]

/-- Witness for C9 at concrete inputs: a fresh id is appended and raises
confidence; a duplicate id is a no-op. -/
theorem pattern_add_evidence_invariants_witness :
    ("mem2" ∉ (["mem1"] : List String) ∧
      ((⟨"Test", .success, "d", [], ["mem1"], 1/2, .candidate, 0, 0, 1⟩ :
          Pattern).add_evidence "mem2").evidence = ["mem1"] ++ ["mem2"] ∧
      ((⟨"Test", .success, "d", [], ["mem1"], 1/2, .candidate, 0, 0, 1⟩ :
          Pattern).add_evidence "mem2").occurrence_count = 1 + 1 ∧
      ((1 : ℚ)/2 < 1 →
        (1 : ℚ)/2 < ((⟨"Test", .success, "d", [], ["mem1"], 1/2, .candidate, 0, 0, 1⟩ :
          Pattern).add_evidence "mem2").confidence)) ∧
    ("mem1" ∈ (["mem1"] : List String) ∧
      (⟨"Test", .success, "d", [], ["mem1"], 1/2, .candidate, 0, 0, 1⟩ :
          Pattern).add_evidence "mem1" =
        ⟨"Test", .success, "d", [], ["mem1"], 1/2, .candidate, 0, 0, 1⟩) :=
  ⟨⟨by decide,
    (pattern_add_evidence_invariants
      ⟨"Test", .success, "d", [], ["mem1"], 1/2, .candidate, 0, 0, 1⟩ "mem2").2.1
      (by decide)⟩,
   ⟨by decide,
    (pattern_add_evidence_invariants
      ⟨"Test", .success, "d", [], ["mem1"], 1/2, .candidate, 0, 0, 1⟩ "mem1").1
      (by decide)⟩⟩

/-- C4: `RecallService.search` embeds the query, consults `search_vector`, and
keeps exactly the hits whose similarity `1/(1+distance)` meets the
`min_similarity` threshold; an empty or whitespace-only query makes both
semantic and text search return `[]` without the embedding service being
called. -/
theorem recall_search_filter_and_empty_query :
    (∀ (q : String) (vec : List (Memory × ℚ)) (min_similarity : ℚ),
      blankQuery q = false →
      (RecallService.search q (.ok vec) min_similarity).embedder_called = true ∧
      ∃ rs, (RecallService.search q (.ok vec) min_similarity).results = .ok rs ∧
        ∀ (m : Memory) (d : ℚ),
          (⟨m, d⟩ : MemoryResult) ∈ rs ↔ ((m, d) ∈ vec ∧ min_similarity ≤ 1 / (1 + d))) ∧
    (∀ (q : String) (vec : Except String (List (Memory × ℚ))) (min_similarity : ℚ),
      blankQuery q = true →
      RecallService.search q vec min_similarity = ⟨.ok [], false⟩) ∧
    (∀ (q : String) (fts : Except String (List Memory)),
      blankQuery q = true →
      RecallService.search_text q fts = (.ok [], false)) ∧
    (∀ (q : String) (fts : Except String (List Memory)),
      (RecallService.search_text q fts).2 = false) := by
  refine ⟨?_, ?_, ?_, ?_⟩
  · intro q vec min_similarity hq
    unfold RecallService.search
    rw [hq]
    simp only [Bool.false_eq_true, if_false]
    refine ⟨trivial, _, rfl, ?_⟩
    intro m d
    simp only [List.mem_map, List.mem_filter]
    constructor
    · rintro ⟨⟨m', d'⟩, ⟨hmem, hsim⟩, heq⟩
      injection heq with h1 h2
      subst h1; subst h2
      exact ⟨hmem, of_decide_eq_true hsim⟩
    · rintro ⟨hmem, hsim⟩
      exact ⟨(m, d), ⟨hmem, decide_eq_true hsim⟩, rfl⟩
  · intro q vec min_similarity hq
    unfold RecallService.search
    rw [hq]
    simp
  · intro q fts hq
    unfold RecallService.search_text
    rw [hq]
    simp
  · intro q fts
    unfold RecallService.search_text
    by_cases hq : blankQuery q
    · rw [hq]; simp
    · rw [Bool.not_eq_true] at hq
      rw [hq]
      cases fts <;> simp

/-- Witness for C4 at concrete inputs: a non-blank query with one close and
one distant hit keeps exactly the close one; a whitespace query
short-circuits. -/
theorem recall_search_filter_and_empty_query_witness :
    (blankQuery "database" = false ∧
      (RecallService.search "database"
        (.ok [(⟨"a", "a", "decisions", some 0, "s", "c", none, [], none,
          .active, []⟩, 1/10)]) (1/2)).embedder_called = true ∧
      ∃ rs, (RecallService.search "database"
        (.ok [(⟨"a", "a", "decisions", some 0, "s", "c", none, [], none,
          .active, []⟩, 1/10)]) (1/2)).results = .ok rs ∧
        ∀ (m : Memory) (d : ℚ),
          (⟨m, d⟩ : MemoryResult) ∈ rs ↔
            ((m, d) ∈ [(⟨"a", "a", "decisions", some 0, "s", "c", none, [], none,
              .active, []⟩, 1/10)] ∧ (1:ℚ)/2 ≤ 1 / (1 + d))) ∧
    (blankQuery "   " = true ∧
      RecallService.search "   " (.ok []) 0 = ⟨.ok [], false⟩) :=
  ⟨⟨by decide,
    (recall_search_filter_and_empty_query.1 "database"
      [(⟨"a", "a", "decisions", some 0, "s", "c", none, [], none, .active, []⟩, 1/10)]
      (1/2) (by decide))⟩,
   ⟨by decide,
    recall_search_filter_and_empty_query.2.1 "   " (.ok []) 0 (by decide)⟩⟩

/-- C10: direct retrieval never raises — on an index failure `get` returns
`none`, `get_batch` and `list_recent` return `[]` — while `search` and
`search_text` propagate the failure wrapped in a typed `RecallError`. -/
theorem recall_error_handling :
    (∀ e, RecallService.get (.error e) = none) ∧
    (∀ e, RecallService.get_batch (.error e) = []) ∧
    (∀ e, RecallService.list_recent (.error e) = []) ∧
    (∀ (q : String) (e : String) (min_similarity : ℚ),
      blankQuery q = false →
      (RecallService.search q (.error e) min_similarity).results =
        .error ⟨"Search failed: " ++ e⟩) ∧
    (∀ (q : String) (e : String),
      blankQuery q = false →
      (RecallService.search_text q (.error e)).1 =
        .error ⟨"Text search failed: " ++ e⟩) := by
  refine ⟨fun e => rfl, fun e => rfl, fun e => rfl, ?_, ?_⟩
  · intro q e min_similarity hq
    unfold RecallService.search
    rw [hq]
    simp
  · intro q e hq
    unfold RecallService.search_text
    rw [hq]
    simp

/-- Witness for C10 at concrete inputs: an index failure surfaces as `none`,
`[]`, and wrapped `RecallError`s. -/
theorem recall_error_handling_witness :
    RecallService.get (.error "db down") = none ∧
    RecallService.get_batch (.error "db down") = [] ∧
    RecallService.list_recent (.error "db down") = [] ∧
    (blankQuery "test" = false ∧
      (RecallService.search "test" (.error "db down") 0).results =
        .error ⟨"Search failed: " ++ "db down"⟩) ∧
    (blankQuery "test" = false ∧
      (RecallService.search_text "test" (.error "db down")).1 =
        .error ⟨"Text search failed: " ++ "db down"⟩) :=
  ⟨recall_error_handling.1 "db down",
   recall_error_handling.2.1 "db down",
   recall_error_handling.2.2.1 "db down",
   ⟨by decide, recall_error_handling.2.2.2.1 "test" "db down" 0 (by decide)⟩,
   ⟨by decide, recall_error_handling.2.2.2.2 "test" "db down" (by decide)⟩⟩

/-- Helper: decay at a past age with no floor is exactly `2^(-age/half_life)`. -/
theorem calculate_temporal_decay_eq (a h : ℝ) (ha : 0 ≤ a) :
    calculate_temporal_decay (some a) h 0 = (2 : ℝ) ^ (-(a / h)) := by
  show max 0 ((2 : ℝ) ^ (-(max 0 a / h))) = (2 : ℝ) ^ (-(a / h))
  rw [max_eq_right ha]
  exact max_eq_right (Real.rpow_pos_of_pos two_pos _).le

/-- C2: for a timestamp of age `a ≥ 0` days and half-life `h > 0`,
`calculate_temporal_decay` equals `2^(-a/h)`; it is 1.0 at age 0, within 1% of
0.5 at age `h`, and strictly decreasing as the age increases. -/
theorem temporal_decay_formula (a h : ℝ) (hh : 0 < h) (ha : 0 ≤ a) :
    calculate_temporal_decay (some a) h 0 = (2 : ℝ) ^ (-(a / h)) ∧
    calculate_temporal_decay (some 0) h 0 = 1 ∧
    |calculate_temporal_decay (some h) h 0 - 0.5| ≤ 0.01 ∧
    (∀ a2 : ℝ, a < a2 →
      calculate_temporal_decay (some a2) h 0 < calculate_temporal_decay (some a) h 0) := by
  refine ⟨calculate_temporal_decay_eq a h ha, ?_, ?_, ?_⟩
  · rw [calculate_temporal_decay_eq 0 h le_rfl]
    norm_num
  · rw [calculate_temporal_decay_eq h h hh.le, div_self hh.ne', Real.rpow_neg_one]
    norm_num
  · intro a2 ha2
    rw [calculate_temporal_decay_eq a h ha, calculate_temporal_decay_eq a2 h (by linarith)]
    rw [Real.rpow_lt_rpow_left_iff (by norm_num : (1:ℝ) < 2)]
    have hdiv : a / h < a2 / h := by gcongr
    linarith

/-- Witness for C2 at concrete inputs `a = 15`, `h = 30`. -/
theorem temporal_decay_formula_witness :
    (0 : ℝ) < 30 ∧ (0 : ℝ) ≤ 15 ∧
    (calculate_temporal_decay (some 15) 30 0 = (2 : ℝ) ^ (-((15 : ℝ) / 30)) ∧
      calculate_temporal_decay (some 0) 30 0 = 1 ∧
      |calculate_temporal_decay (some 30) 30 0 - 0.5| ≤ 0.01 ∧
      (∀ a2 : ℝ, (15 : ℝ) < a2 →
        calculate_temporal_decay (some a2) 30 0 < calculate_temporal_decay (some 15) 30 0)) :=
  ⟨by norm_num, by norm_num, temporal_decay_formula 15 30 (by norm_num) (by norm_num)⟩

/-- C3 counterexample: the temporal-decay recency input with an absent (None)
timestamp yields 0.5, not 0 — refuting the claim's "absent timestamp yields 0"
at the concrete input `none` (with the default half-life 30 and floor 0). -/
theorem recency_none_yields_half_not_zero :
    calculate_temporal_decay none 30 0 ≠ 0 := by
  unfold calculate_temporal_decay
  norm_num

/-- C3 (amended): an absent (None) timestamp yields 0.5 — for every half-life
and floor — and a future timestamp (negative age) yields 1. -/
theorem recency_none_half_future_one :
    (∀ h m : ℝ, calculate_temporal_decay none h m = 0.5) ∧
    (∀ a h : ℝ, a < 0 → 0 < h → calculate_temporal_decay (some a) h 0 = 1) := by
  constructor
  · intro h m
    rfl
  · intro a h ha hh
    show max 0 ((2 : ℝ) ^ (-(max 0 a / h))) = 1
    rw [max_eq_left ha.le, zero_div, neg_zero, Real.rpow_zero]
    norm_num

/-- Witness for the amended C3 at concrete inputs: `none` with half-life 30
and a 10-days-in-the-future timestamp (age −10). -/
theorem recency_none_half_future_one_witness :
    calculate_temporal_decay none 30 0 = 0.5 ∧
    ((-10 : ℝ) < 0 ∧ (0 : ℝ) < 30 ∧
      calculate_temporal_decay (some (-10)) 30 0 = 1) :=
  ⟨recency_none_half_future_one.1 30 0,
    by norm_num, by norm_num,
    recency_none_half_future_one.2 (-10) 30 (by norm_num) (by norm_num)⟩

/-- C5: `ResultReranker.rerank` returns exactly the input results (as a
permutation), assigns each one
`boosted_score = max 0 (distance − Σ weight · factor)` — hence every boosted
score is nonnegative — and sorts ascending by boosted score. -/
theorem reranker_boost_and_sort (w : RerankWeights) (now : ℚ)
    (target_namespace target_spec : Option String) (target_tags : List String)
    (results : List MemoryResult) :
    ((ResultReranker.rerank w now target_namespace target_spec target_tags results).map
        (fun r => r.result)).Perm results ∧
    (∀ r ∈ ResultReranker.rerank w now target_namespace target_spec target_tags results,
      r.original_score = (r.result.distance : ℝ) ∧
      r.rank_factors =
        rankFactorsOf now target_namespace target_spec target_tags r.result.memory ∧
      r.boosted_score = max 0 ((r.result.distance : ℝ) - boostOf w r.rank_factors) ∧
      0 ≤ r.boosted_score) ∧
    (ResultReranker.rerank w now target_namespace target_spec target_tags results).Pairwise
      (fun a b => a.boosted_score ≤ b.boosted_score) := by
  refine ⟨?_, ?_, ?_⟩
  · have hperm := List.mergeSort_perm
      (results.map (rankOne w now target_namespace target_spec target_tags))
      (fun a b => decide (a.boosted_score ≤ b.boosted_score))
    have hmap := hperm.map (fun r => r.result)
    rw [List.map_map] at hmap
    have hcomp : ((fun r : RankedResult => r.result) ∘
        rankOne w now target_namespace target_spec target_tags) = id :=
      funext (fun r => rfl)
    rw [hcomp, List.map_id] at hmap
    exact hmap
  · intro r hr
    rw [ResultReranker.rerank, List.mem_mergeSort, List.mem_map] at hr
    obtain ⟨x, _, rfl⟩ := hr
    exact ⟨rfl, rfl, rfl, le_max_left 0 _⟩
  · have hsorted := @List.sorted_mergeSort RankedResult
      (fun a b => decide (a.boosted_score ≤ b.boosted_score))
      (fun a b c hab hbc => by
        simp only [decide_eq_true_eq] at *
        exact le_trans hab hbc)
      (fun a b => by
        simp only [Bool.or_eq_true, decide_eq_true_eq]
        exact le_total a.boosted_score b.boosted_score)
      (results.map (rankOne w now target_namespace target_spec target_tags))
    exact hsorted.imp (fun h => of_decide_eq_true h)

/-- Witness for C5 at concrete inputs: reranking a concrete one-element result
list with zero weights. -/
theorem reranker_boost_and_sort_witness :
    ((ResultReranker.rerank ⟨0, 0, 0, 0⟩ 0 none none []
        [⟨⟨"a", "a", "decisions", some 0, "s", "c", none, [], none, .active, []⟩,
          3/10⟩]).map (fun r => r.result)).Perm
      [⟨⟨"a", "a", "decisions", some 0, "s", "c", none, [], none, .active, []⟩, 3/10⟩] ∧
    (∀ r ∈ ResultReranker.rerank ⟨0, 0, 0, 0⟩ 0 none none []
        [⟨⟨"a", "a", "decisions", some 0, "s", "c", none, [], none, .active, []⟩, 3/10⟩],
      r.original_score = (r.result.distance : ℝ) ∧
      r.rank_factors = rankFactorsOf 0 none none [] r.result.memory ∧
      r.boosted_score = max 0 ((r.result.distance : ℝ) - boostOf ⟨0, 0, 0, 0⟩ r.rank_factors) ∧
      0 ≤ r.boosted_score) ∧
    (ResultReranker.rerank ⟨0, 0, 0, 0⟩ 0 none none []
        [⟨⟨"a", "a", "decisions", some 0, "s", "c", none, [], none, .active, []⟩,
          3/10⟩]).Pairwise
      (fun a b => a.boosted_score ≤ b.boosted_score) :=
  reranker_boost_and_sort ⟨0, 0, 0, 0⟩ 0 none none []
    [⟨⟨"a", "a", "decisions", some 0, "s", "c", none, [], none, .active, []⟩, 3/10⟩]
